import Mathlib

/-- JavaScript `x || d` on an optional number: `undefined`/`null` and `0`
are falsy, every other number is returned unchanged. -/

def jsOr (o : Option ℚ) (d : ℚ) : ℚ :=
  match o with
  | none => d
  | some v => if v = 0 then d else v

/-- JavaScript `x || d` on an optional string: `undefined`/`null` and the
empty string are falsy. -/

def jsOrString (o : Option String) (d : String) : String :=
  match o with
  | none => d
  | some s => if s = "" then d else s

/-- One entry of a size's `allocationLog` (pushed by `recordBatchAllocation`). -/

structure AllocationEntry where
  productId : Option String
  productName : Option String
  schoolId : Option String
  schoolName : Option String
  quantityAllocated : ℚ
  allocatedAt : String
  allocatedBy : Option String
  allocatedByName : Option String
  deriving Repr, DecidableEq

/-- One size record inside a batch item. -/

structure SizeEntry where
  size : String
  quantity : Option ℚ
  originalQuantity : Option ℚ
  allocated : Option ℚ
  allocationLog : Option (List AllocationEntry)
  deriving Repr, DecidableEq

/-- One item of a batch (a variant/color row with its sizes). -/

structure Item where
  variantType : String
  color : String
  price : Option ℚ
  sizes : Option (List SizeEntry)
  deriving Repr, DecidableEq

/-- A batch document from the `batchInventory` collection. -/

structure Batch where
  id : Option String
  name : Option String
  items : Option (List Item)
  deriving Repr, DecidableEq

/-- The `allocationData` payload passed to `recordBatchAllocation`. -/

structure AllocationData where
  productId : Option String
  productName : Option String
  schoolId : Option String
  schoolName : Option String
  variantType : String
  color : String
  size : String
  quantity : ℚ
  allocatedBy : Option String
  allocatedByName : Option String
  deriving Repr, DecidableEq

/-- The log entry `recordBatchAllocation` pushes onto
`sizeData.allocationLog` (`allocatedAt` is `new Date().toISOString()`,
modelled by the explicit `now` argument). -/

def mkLogEntry (d : AllocationData) (now : String) : AllocationEntry :=
  { productId := d.productId
    productName := d.productName
    schoolId := d.schoolId
    schoolName := d.schoolName
    quantityAllocated := d.quantity
    allocatedAt := now
    allocatedBy := d.allocatedBy
    allocatedByName := d.allocatedByName }

/-- The in-place mutation `recordBatchAllocation` performs on the matched
size record: back-fill `originalQuantity` when it is `undefined`, bump
`allocated`, and append a log entry (creating the log when absent). -/

def updateSize (s : SizeEntry) (d : AllocationData) (now : String) : SizeEntry :=
  let s1 :=
    if s.originalQuantity = none then
      { s with originalQuantity := some (jsOr s.quantity 0 + d.quantity) }
    else s
  let s2 := { s1 with allocated := some (jsOr s1.allocated 0 + d.quantity) }
  { s2 with allocationLog := some (s2.allocationLog.getD [] ++ [mkLogEntry d now]) }

/-- JavaScript `Array.prototype.findIndex`: index of the first element
satisfying the predicate, with the `-1` sentinel modelled as `none`. -/

def findIndex (p : α → Bool) : List α → Option Nat
  | [] => none
  | a :: l => if p a then some 0 else (findIndex p l).map (fun n => n + 1)

/-- Predicate used by `findIndex` to locate the batch item matching the
payload's variant type and color. -/

def itemMatches (d : AllocationData) (item : Item) : Bool :=
  item.variantType == d.variantType && item.color == d.color

/-- Predicate used by `findIndex` to locate the size record matching the
payload's size. -/

def sizeMatches (d : AllocationData) (s : SizeEntry) : Bool :=
  s.size == d.size

/-- The pure core of `recordBatchAllocation`: given the batch document read
from the store, produce the updated document, or `none` on any of the
not-found paths (item missing, size list absent — where the JS indexing
throws and the `catch` turns it into `false` — or size missing). -/

def applyAllocation (batchData : Batch) (d : AllocationData) (now : String) :
    Option Batch :=
  match findIndex (itemMatches d) (batchData.items.getD []) with
  | none => none
  | some itemIndex =>
    match (batchData.items.getD [])[itemIndex]? with
    | none => none
    | some item =>
      match item.sizes with
      | none => none
      | some sizes =>
        match findIndex (sizeMatches d) sizes with
        | none => none
        | some sizeIndex =>
          match sizes[sizeIndex]? with
          | none => none
          | some sizeData =>
            some { batchData with items := some ((batchData.items.getD []).set itemIndex
              { item with sizes := some (sizes.set sizeIndex (updateSize sizeData d now)) }) }

/-- The modelled Firestore slice: the `batchInventory` collection as an
association list, plus flags making the next read (`getDoc`) or write
(`updateDoc`) fail, standing for network/store errors. -/

structure Store where
  batches : List (String × Batch)
  readFails : Bool
  writeFails : Bool
  deriving Repr, DecidableEq

/-- First-match lookup in the modelled collection. -/

def getAssoc : List (String × Batch) → String → Option Batch
  | [], _ => none
  | kv :: rest, k => if kv.1 = k then some kv.2 else getAssoc rest k

/-- First-match replacement in the modelled collection (the write path of
`updateDoc` on an existing document). -/

def setAssoc : List (String × Batch) → String → Batch → List (String × Batch)
  | [], _, _ => []
  | kv :: rest, k, v => if kv.1 = k then (k, v) :: rest else kv :: setAssoc rest k v

/-- `recordBatchAllocation(batchId, allocationData)`: reads the batch
document, locates the matching item and size, mutates the size's
allocation-tracking fields and writes the document back.  Every failure —
a store error on read or write, a missing batch, item or size — is caught
and surfaced as `false` with no change persisted. -/

def recordBatchAllocation (store : Store) (batchId : String)
    (d : AllocationData) (now : String) : Bool × Store :=
  if store.readFails then (false, store)
  else
    match getAssoc store.batches batchId with
    | none => (false, store)
    | some batchData =>
      match applyAllocation batchData d now with
      | none => (false, store)
      | some updated =>
        if store.writeFails then (false, store)
        else (true, { store with batches := setAssoc store.batches batchId updated })

/-- One row of the summary's `unallocatedItems` list. -/

structure UnallocatedItem where
  batchId : Option String
  batchName : Option String
  variantType : String
  color : String
  size : String
  quantity : ℚ
  price : ℚ
  value : ℚ
  deriving Repr, DecidableEq

/-- An allocation-log entry enriched (by object spread) with the item and
size coordinates it was found under. -/

structure EnrichedAllocation where
  entry : AllocationEntry
  variantType : String
  color : String
  size : String
  deriving Repr, DecidableEq

/-- One value of the summary's `allocationsByProduct` map. -/

structure ProductAllocation where
  productId : Option String
  productName : Option String
  schoolId : Option String
  schoolName : Option String
  totalQuantity : ℚ
  allocations : List EnrichedAllocation
  deriving Repr, DecidableEq

/-- The object returned by `getBatchAllocationSummary`.  `allocationRate`
is `Option` because the early-return object for a null/absent batch or
missing `items` carries no `allocationRate` key at all (the field reads
back as `undefined`), while the computed path always sets it. -/

structure Summary where
  totalOriginal : ℚ
  totalAllocated : ℚ
  totalUnallocated : ℚ
  allocatedValue : ℚ
  unallocatedValue : ℚ
  allocationRate : Option ℚ
  allocationsByProduct : List (String × ProductAllocation)
  unallocatedItems : List UnallocatedItem
  deriving Repr, DecidableEq

/-- The zero-guarded allocation-rate formula
`totalOriginal > 0 ? (totalAllocated / totalOriginal * 100).toFixed(1) : 0`,
with `toFixed(1)` display formatting abstracted away. -/

def allocationRateOf (totalAllocated totalOriginal : ℚ) : ℚ :=
  if 0 < totalOriginal then totalAllocated / totalOriginal * 100 else 0

/-- The early-return summary for a null/absent batch or a batch without
`items`: all counts zero, empty lists, and no `allocationRate` key. -/

def emptySummary : Summary :=
  { totalOriginal := 0
    totalAllocated := 0
    totalUnallocated := 0
    allocatedValue := 0
    unallocatedValue := 0
    allocationRate := none
    allocationsByProduct := []
    unallocatedItems := [] }

/-- The running state of `getBatchAllocationSummary`'s `forEach` loops. -/

structure SummaryAcc where
  totalOriginal : ℚ
  totalAllocated : ℚ
  totalUnallocated : ℚ
  allocatedValue : ℚ
  unallocatedValue : ℚ
  allocationsByProduct : List (String × ProductAllocation)
  unallocatedItems : List UnallocatedItem
  deriving Repr, DecidableEq

/-- The all-zero initial accumulator. -/

def initAcc : SummaryAcc :=
  { totalOriginal := 0
    totalAllocated := 0
    totalUnallocated := 0
    allocatedValue := 0
    unallocatedValue := 0
    allocationsByProduct := []
    unallocatedItems := [] }

/-- Fresh `allocationsByProduct` record created the first time a product
key is seen. -/

def initProductAllocation (a : AllocationEntry) : ProductAllocation :=
  { productId := a.productId
    productName := a.productName
    schoolId := a.schoolId
    schoolName := a.schoolName
    totalQuantity := 0
    allocations := [] }

/-- Add one log entry to a product's record: bump `totalQuantity` and push
the enriched allocation. -/

def bumpProductAllocation (a : AllocationEntry) (vt color sz : String)
    (p : ProductAllocation) : ProductAllocation :=
  { p with
    totalQuantity := p.totalQuantity + a.quantityAllocated
    allocations := p.allocations ++ [⟨a, vt, color, sz⟩] }

/-- Fold one allocation-log entry into the `allocationsByProduct` map
(JS object with string keys, insertion-ordered: a fresh key is appended). -/

def insertAllocation (abp : List (String × ProductAllocation))
    (a : AllocationEntry) (vt color sz : String) :
    List (String × ProductAllocation) :=
  let key := jsOrString a.productId "unknown"
  if (abp.find? (fun kv => kv.1 == key)).isSome then
    abp.map (fun kv => if kv.1 = key then (kv.1, bumpProductAllocation a vt color sz kv.2) else kv)
  else
    abp ++ [(key, bumpProductAllocation a vt color sz (initProductAllocation a))]

/-- The `unallocatedItems` row pushed for a size with positive remaining
quantity. -/

def sizeRow (b : Batch) (item : Item) (s : SizeEntry) : UnallocatedItem :=
  { batchId := b.id
    batchName := b.name
    variantType := item.variantType
    color := item.color
    size := s.size
    quantity := jsOr s.quantity 0
    price := jsOr item.price 0
    value := jsOr s.quantity 0 * jsOr item.price 0 }

/-- The body of the inner `forEach` over a size record. -/

def processSize (b : Batch) (item : Item) (acc : SummaryAcc) (s : SizeEntry) :
    SummaryAcc :=
  let price := jsOr item.price 0
  let quantity := jsOr s.quantity 0
  let allocated := jsOr s.allocated 0
  let original := jsOr s.originalQuantity (quantity + allocated)
  { totalOriginal := acc.totalOriginal + original
    totalAllocated := acc.totalAllocated + allocated
    totalUnallocated := acc.totalUnallocated + quantity
    allocatedValue := acc.allocatedValue + allocated * price
    unallocatedValue := acc.unallocatedValue + quantity * price
    unallocatedItems :=
      acc.unallocatedItems ++ (if 0 < quantity then [sizeRow b item s] else [])
    allocationsByProduct :=
      (s.allocationLog.getD []).foldl
        (fun abp a => insertAllocation abp a item.variantType item.color s.size)
        acc.allocationsByProduct }

/-- The body of the outer `forEach` over a batch item
(`(item.sizes || []).forEach(...)`). -/

def processItem (b : Batch) (acc : SummaryAcc) (item : Item) : SummaryAcc :=
  (item.sizes.getD []).foldl (processSize b item) acc

/-- `getBatchAllocationSummary(batch)`: totals of original, allocated and
remaining quantities and their monetary values, the per-product allocation
map, and the list of still-unallocated rows. -/

def getBatchAllocationSummary (batch : Option Batch) : Summary :=
  match batch with
  | none => emptySummary
  | some b =>
    match b.items with
    | none => emptySummary
    | some items =>
      let acc := items.foldl (processItem b) initAcc
      { totalOriginal := acc.totalOriginal
        totalAllocated := acc.totalAllocated
        totalUnallocated := acc.totalUnallocated
        allocatedValue := acc.allocatedValue
        unallocatedValue := acc.unallocatedValue
        allocationRate := some (allocationRateOf acc.totalAllocated acc.totalOriginal)
        allocationsByProduct := acc.allocationsByProduct
        unallocatedItems := acc.unallocatedItems }

/-- The object returned by `getAggregatedAllocationData` (no
`allocationsByProduct`; `allocationRate` is always computed). -/

structure AggregateSummary where
  totalOriginal : ℚ
  totalAllocated : ℚ
  totalUnallocated : ℚ
  allocatedValue : ℚ
  unallocatedValue : ℚ
  allocationRate : ℚ
  unallocatedItems : List UnallocatedItem
  deriving Repr, DecidableEq

/-- The running state of `getAggregatedAllocationData`'s `forEach`. -/

structure AggAcc where
  totalOriginal : ℚ
  totalAllocated : ℚ
  totalUnallocated : ℚ
  allocatedValue : ℚ
  unallocatedValue : ℚ
  unallocatedItems : List UnallocatedItem
  deriving Repr, DecidableEq

/-- Fold one batch's summary into the aggregation accumulator. -/

def aggStep (acc : AggAcc) (batch : Option Batch) : AggAcc :=
  let summary := getBatchAllocationSummary batch
  { totalOriginal := acc.totalOriginal + summary.totalOriginal
    totalAllocated := acc.totalAllocated + summary.totalAllocated
    totalUnallocated := acc.totalUnallocated + summary.totalUnallocated
    allocatedValue := acc.allocatedValue + summary.allocatedValue
    unallocatedValue := acc.unallocatedValue + summary.unallocatedValue
    unallocatedItems := acc.unallocatedItems ++ summary.unallocatedItems }

/-- `getAggregatedAllocationData(batches)`: sums every batch's summary
totals (`(batches || [])`, so a null/absent list is treated as empty),
flattens the unallocated rows, and recomputes the rate globally with the
same zero-guarded formula. -/

def getAggregatedAllocationData (batches : Option (List (Option Batch))) :
    AggregateSummary :=
  let acc := (batches.getD []).foldl aggStep
    { totalOriginal := 0, totalAllocated := 0, totalUnallocated := 0
      allocatedValue := 0, unallocatedValue := 0, unallocatedItems := [] }
  { totalOriginal := acc.totalOriginal
    totalAllocated := acc.totalAllocated
    totalUnallocated := acc.totalUnallocated
    allocatedValue := acc.allocatedValue
    unallocatedValue := acc.unallocatedValue
    allocationRate := allocationRateOf acc.totalAllocated acc.totalOriginal
    unallocatedItems := acc.unallocatedItems }

/-- A size row of a product variant (`{quantity}` is all `getProductFlow`
reads from it). -/

structure VariantSize where
  quantity : Option ℚ
  deriving Repr, DecidableEq

/-- One entry of a variant's `allocationHistory` (a distribution of stock
to a student). -/

structure HistoryEntry where
  studentId : Option String
  size : Option String
  quantity : Option ℚ
  allocatedAt : Option String
  deriving Repr, DecidableEq

/-- A product variant with its sizes and its student-allocation history. -/

structure Variant where
  sizes : Option (List VariantSize)
  allocationHistory : Option (List HistoryEntry)
  deriving Repr, DecidableEq

/-- A product document (`id` and `variants` are all `getProductFlow`
reads from it). -/

structure Product where
  id : Option String
  variants : Option (List Variant)
  deriving Repr, DecidableEq

/-- A student document (`id` and `name` are all `getProductFlow` reads
from it). -/

structure Student where
  id : Option String
  name : Option String
  deriving Repr, DecidableEq

/-- One row of a product flow's `studentAllocations`. -/

structure StudentAllocationRow where
  studentId : Option String
  studentName : String
  size : Option String
  quantity : Option ℚ
  allocatedAt : Option String
  deriving Repr, DecidableEq

/-- One element of the flow's `products` list: the spread of the summary's
`ProductAllocation` plus the stock and distribution figures. -/

structure ProductFlowEntry where
  base : ProductAllocation
  currentStock : ℚ
  distributedToStudents : ℚ
  studentAllocations : List StudentAllocationRow
  deriving Repr, DecidableEq

/-- The `flow.batch` header of `getProductFlow`'s result. -/

structure FlowBatch where
  id : Option String
  name : Option String
  totalItems : ℚ
  allocatedItems : ℚ
  unallocatedItems : ℚ
  allocationRate : Option ℚ
  deriving Repr, DecidableEq

/-- The tree returned by `getProductFlow`. -/

structure FlowTree where
  batch : FlowBatch
  products : List ProductFlowEntry
  unallocated : List UnallocatedItem
  deriving Repr, DecidableEq

/-- Build one `studentAllocations` row: resolve the student's display name
by id lookup (`students?.find(s => s.id === allocation.studentId)`),
falling back to `"Unknown Student"` when not found or when the name is
falsy. -/

def mkStudentRow (students : Option (List Student)) (a : HistoryEntry) :
    StudentAllocationRow :=
  let student := (students.getD []).find? (fun s => s.id == a.studentId)
  { studentId := a.studentId
    studentName := jsOrString (student.bind Student.name) "Unknown Student"
    size := a.size
    quantity := a.quantity
    allocatedAt := a.allocatedAt }

/-- Fold one variant into a product-flow entry: add the variant's size
quantities to `currentStock`, and every `allocationHistory` entry to
`distributedToStudents` and `studentAllocations`. -/

def processVariant (students : Option (List Student))
    (pf : ProductFlowEntry) (v : Variant) : ProductFlowEntry :=
  (v.allocationHistory.getD []).foldl
    (fun pf2 a =>
      { pf2 with
        distributedToStudents := pf2.distributedToStudents + jsOr a.quantity 0
        studentAllocations := pf2.studentAllocations ++ [mkStudentRow students a] })
    { pf with
      currentStock := pf.currentStock +
        ((v.sizes.getD []).foldl (fun acc sz => acc + jsOr sz.quantity 0) 0) }

/-- Build the flow entry for one product group of the summary: find the
product by id (`undefined === undefined` matches, as in JS), and when it
exists and has `variants`, accumulate stock and student distributions. -/

def buildProductFlow (products : Option (List Product))
    (students : Option (List Student)) (pa : ProductAllocation) :
    ProductFlowEntry :=
  let product := (products.getD []).find? (fun p => p.id == pa.productId)
  let pf0 : ProductFlowEntry :=
    { base := pa, currentStock := 0, distributedToStudents := 0
      studentAllocations := [] }
  match product with
  | none => pf0
  | some p =>
    match p.variants with
    | none => pf0
    | some variants => variants.foldl (processVariant students) pf0

/-- `getProductFlow(batch, products, students)`: `null` when the batch or
its `items` is absent; otherwise the batch header from the summary, one
flow entry per product group, and the summary's unallocated rows. -/

def getProductFlow (batch : Option Batch) (products : Option (List Product))
    (students : Option (List Student)) : Option FlowTree :=
  match batch with
  | none => none
  | some b =>
    match b.items with
    | none => none
    | some _ =>
      let summary := getBatchAllocationSummary batch
      some
        { batch :=
            { id := b.id
              name := b.name
              totalItems := summary.totalOriginal
              allocatedItems := summary.totalAllocated
              unallocatedItems := summary.totalUnallocated
              allocationRate := summary.allocationRate }
          products := summary.allocationsByProduct.map
            (fun kv => buildProductFlow products students kv.2)
          unallocated := summary.unallocatedItems }

/-- The remaining quantity read from a size (`size.quantity || 0`). -/

def sizeQty (s : SizeEntry) : ℚ := jsOr s.quantity 0

/-- The allocated counter read from a size (`size.allocated || 0`). -/

def sizeAlloc (s : SizeEntry) : ℚ := jsOr s.allocated 0

/-- The per-size `original` reading of the summary
(`size.originalQuantity || (quantity + allocated)`). -/

def sizeOriginal (s : SizeEntry) : ℚ :=
  jsOr s.originalQuantity (sizeQty s + sizeAlloc s)

/-- A size's allocation log, empty when absent. -/

def sizeLog (s : SizeEntry) : List AllocationEntry := s.allocationLog.getD []

/-- Sum of `quantityAllocated` over a size's allocation log. -/

def logTotal (s : SizeEntry) : ℚ :=
  ((sizeLog s).map AllocationEntry.quantityAllocated).sum

/-- The counter-log equality: the running `allocated` counter agrees with
the total quantity recorded in the `allocationLog`. -/

def sizeInvariant (s : SizeEntry) : Prop := sizeAlloc s = logTotal s

/-- The sizes list of an item, empty when absent. -/

def itemSizes (item : Item) : List SizeEntry := item.sizes.getD []

/-- The `unallocatedItems` rows an item contributes (one per size with
positive remaining quantity). -/

def itemRows (b : Batch) (item : Item) : List UnallocatedItem :=
  (itemSizes item).flatMap
    (fun s => if 0 < sizeQty s then [sizeRow b item s] else [])

/-- Every size of every item of a batch satisfies the counter-log equality. -/

def batchSizesInvariant (b : Batch) : Prop :=
  ∀ item ∈ b.items.getD [], ∀ s ∈ itemSizes item, sizeInvariant s

/-- Every batch of the store satisfies `batchSizesInvariant`. -/

def storeInvariant (store : Store) : Prop :=
  ∀ kv ∈ store.batches, batchSizesInvariant kv.2

instance (s : SizeEntry) : Decidable (sizeInvariant s) := by
  unfold sizeInvariant
  infer_instance

instance (b : Batch) : Decidable (batchSizesInvariant b) := by
  unfold batchSizesInvariant
  infer_instance

instance (store : Store) : Decidable (storeInvariant store) := by
  unfold storeInvariant
  infer_instance

/-- Run a list of `recordBatchAllocation` calls (batch id, payload,
timestamp) against the store, keeping only the store state. -/

def runAllocations (store : Store)
    (calls : List (String × AllocationData × String)) : Store :=
  calls.foldl (fun st c => (recordBatchAllocation st c.1 c.2.1 c.2.2).2) store

/-- The size record a payload targets in the store: the same
batch/item/size lookups `recordBatchAllocation` performs, without the
update. -/

def targetSize (store : Store) (batchId : String) (d : AllocationData) :
    Option SizeEntry :=
  match getAssoc store.batches batchId with
  | none => none
  | some b =>
    match findIndex (itemMatches d) (b.items.getD []) with
    | none => none
    | some itemIndex =>
      match (b.items.getD [])[itemIndex]? with
      | none => none
      | some item =>
        match item.sizes with
        | none => none
        | some sizes =>
          match findIndex (sizeMatches d) sizes with
          | none => none
          | some sizeIndex => sizes[sizeIndex]?

/-- The item price reading (`item.price || 0`). -/

def itemPrice (item : Item) : ℚ := jsOr item.price 0

/-- Total `original` contributed by a list of items. -/

def totalOriginalOf (items : List Item) : ℚ :=
  (items.map (fun it => ((itemSizes it).map sizeOriginal).sum)).sum

/-- Total `allocated` contributed by a list of items. -/

def totalAllocatedOf (items : List Item) : ℚ :=
  (items.map (fun it => ((itemSizes it).map sizeAlloc).sum)).sum

/-- Total remaining `quantity` contributed by a list of items. -/

def totalUnallocatedOf (items : List Item) : ℚ :=
  (items.map (fun it => ((itemSizes it).map sizeQty).sum)).sum

/-- Total allocated monetary value contributed by a list of items. -/

def allocatedValueOf (items : List Item) : ℚ :=
  (items.map (fun it => ((itemSizes it).map (fun s => sizeAlloc s * itemPrice it)).sum)).sum

/-- Total unallocated monetary value contributed by a list of items. -/

def unallocatedValueOf (items : List Item) : ℚ :=
  (items.map (fun it => ((itemSizes it).map (fun s => sizeQty s * itemPrice it)).sum)).sum

/-- Fold a whole item's allocation-log entries into the per-product map. -/

def itemLogFold (item : Item) (abp : List (String × ProductAllocation)) :
    List (String × ProductAllocation) :=
  (itemSizes item).foldl
    (fun abp2 s => (sizeLog s).foldl
      (fun abp3 a => insertAllocation abp3 a item.variantType item.color s.size) abp2)
    abp

/-- Stock a variant holds: sum of `quantity` over its sizes. -/

def variantStock (v : Variant) : ℚ :=
  ((v.sizes.getD []).map (fun sz => jsOr sz.quantity 0)).sum

/-- Quantity a variant has distributed to students: sum of `quantity`
over its `allocationHistory`. -/

def variantDistributed (v : Variant) : ℚ :=
  ((v.allocationHistory.getD []).map (fun a => jsOr a.quantity 0)).sum

/-- The spec's walk-through size: `{size:"M", quantity:20}`. -/

def c2Size : SizeEntry :=
  { size := "M", quantity := some 20, originalQuantity := none
    allocated := none, allocationLog := none }

/-- The spec's walk-through item: `{variantType:"Shirt", color:"White", price:10}`. -/

def c2Item : Item :=
  { variantType := "Shirt", color := "White", price := some 10, sizes := some [c2Size] }

/-- The spec's walk-through batch. -/

def c2Batch : Batch :=
  { id := some "B1", name := some "Batch 1", items := some [c2Item] }

/-- The spec's walk-through payload: product `P1`, size `M`, quantity 5. -/

def c2Data : AllocationData :=
  { productId := some "P1", productName := some "Prod", schoolId := some "S1"
    schoolName := some "School", variantType := "Shirt", color := "White"
    size := "M", quantity := 5, allocatedBy := some "U1", allocatedByName := some "User" }

/-- A healthy store holding only the walk-through batch. -/

def c2Store : Store := { batches := [("B1", c2Batch)], readFails := false, writeFails := false }

/-- The walk-through batch as read back after the recording call. -/

def c2After : Option Batch :=
  getAssoc (recordBatchAllocation c2Store "B1" c2Data "t0").2.batches "B1"

/-- The single size record of the read-back walk-through batch. -/

def c2SizeAfter : Option SizeEntry :=
  c2After.bind (fun b => ((b.items.getD [])[0]?).bind (fun it => (it.sizes.getD [])[0]?))

/-- Baseline back-fill sample size: `quantity` 5, no `originalQuantity`. -/

def c3Size : SizeEntry :=
  { size := "M", quantity := some 5, originalQuantity := none
    allocated := none, allocationLog := none }

/-- Item holding the back-fill sample size. -/

def c3Item : Item :=
  { variantType := "Shirt", color := "Blue", price := some 7, sizes := some [c3Size] }

/-- Batch holding the back-fill sample item. -/

def c3Batch : Batch :=
  { id := some "B2", name := some "Batch 2", items := some [c3Item] }

/-- Back-fill sample payload: quantity 3 against size `M`. -/

def c3Data : AllocationData :=
  { productId := some "P2", productName := none, schoolId := none
    schoolName := none, variantType := "Shirt", color := "Blue"
    size := "M", quantity := 3, allocatedBy := none, allocatedByName := none }

/-- Store holding the back-fill sample batch. -/

def c3Store : Store := { batches := [("B2", c3Batch)], readFails := false, writeFails := false }

/-- A size whose `originalQuantity` is present but `0` (reachable, e.g. by
recording against a zero-quantity size), with remaining quantity 4. -/

def c5Size : SizeEntry :=
  { size := "S", quantity := some 4, originalQuantity := some 0
    allocated := none, allocationLog := none }

/-- Item holding the zero-`originalQuantity` size. -/

def c5Item : Item :=
  { variantType := "V", color := "C", price := some 10, sizes := some [c5Size] }

/-- Batch holding the zero-`originalQuantity` item. -/

def c5Batch : Batch := { id := none, name := none, items := some [c5Item] }

/-- A store with no batches and no induced failures. -/

def emptyStore : Store := { batches := [], readFails := false, writeFails := false }

/-- A sample student-allocation history entry. -/

def c9Entry : HistoryEntry :=
  { studentId := some "ST1", size := some "M", quantity := some 2, allocatedAt := some "t" }

/-! ## Lemmas and claim theorems -/

theorem jsOr_some_zero (v : ℚ) : jsOr (some v) 0 = v := by
  by_cases h : v = 0 <;> simp [jsOr, h]

theorem jsOr_none (d : ℚ) : jsOr none d = d := rfl

theorem updateSize_size (s : SizeEntry) (d : AllocationData) (now : String) :
    (updateSize s d now).size = s.size := by
  unfold updateSize
  by_cases h : s.originalQuantity = none <;> simp [h]

theorem updateSize_quantity (s : SizeEntry) (d : AllocationData) (now : String) :
    (updateSize s d now).quantity = s.quantity := by
  unfold updateSize
  by_cases h : s.originalQuantity = none <;> simp [h]

theorem updateSize_allocated (s : SizeEntry) (d : AllocationData) (now : String) :
    (updateSize s d now).allocated = some (sizeAlloc s + d.quantity) := by
  unfold updateSize sizeAlloc
  by_cases h : s.originalQuantity = none <;> simp [h]

theorem updateSize_sizeAlloc (s : SizeEntry) (d : AllocationData) (now : String) :
    sizeAlloc (updateSize s d now) = sizeAlloc s + d.quantity := by
  rw [sizeAlloc, updateSize_allocated, jsOr_some_zero]

theorem updateSize_log (s : SizeEntry) (d : AllocationData) (now : String) :
    sizeLog (updateSize s d now) = sizeLog s ++ [mkLogEntry d now] := by
  unfold updateSize sizeLog
  by_cases h : s.originalQuantity = none <;> simp [h]

theorem updateSize_logTotal (s : SizeEntry) (d : AllocationData) (now : String) :
    logTotal (updateSize s d now) = logTotal s + d.quantity := by
  rw [logTotal, updateSize_log]
  simp [logTotal, mkLogEntry]

theorem updateSize_originalQuantity_none (s : SizeEntry) (d : AllocationData)
    (now : String) (h : s.originalQuantity = none) :
    (updateSize s d now).originalQuantity = some (jsOr s.quantity 0 + d.quantity) := by
  unfold updateSize
  simp [h]

theorem updateSize_originalQuantity_some (s : SizeEntry) (d : AllocationData)
    (now : String) (v : ℚ) (h : s.originalQuantity = some v) :
    (updateSize s d now).originalQuantity = some v := by
  unfold updateSize
  simp [h]

/-- `updateSize` preserves the counter-log equality. -/
theorem updateSize_invariant (s : SizeEntry) (d : AllocationData) (now : String)
    (h : sizeInvariant s) : sizeInvariant (updateSize s d now) := by
  unfold sizeInvariant at h ⊢
  rw [updateSize_sizeAlloc, updateSize_logTotal, h]

theorem findIndex_lt_length {p : α → Bool} {l : List α} {i : Nat}
    (h : findIndex p l = some i) : i < l.length := by
  induction l generalizing i with
  | nil => simp [findIndex] at h
  | cons a t ih =>
    by_cases hp : p a
    · simp [findIndex, hp] at h
      simp [List.length_cons]
      omega
    · simp [findIndex, hp] at h
      obtain ⟨j, hj, rfl⟩ := h
      have := ih hj
      simp [List.length_cons]
      omega

theorem findIndex_found {p : α → Bool} {l : List α} {i : Nat} {a : α}
    (h : findIndex p l = some i) (hg : l[i]? = some a) : p a = true := by
  induction l generalizing i with
  | nil => simp [findIndex] at h
  | cons x t ih =>
    by_cases hp : p x
    · simp [findIndex, hp] at h
      subst h
      simp at hg
      subst hg
      exact hp
    · simp [findIndex, hp] at h
      obtain ⟨j, hj, rfl⟩ := h
      simp at hg
      exact ih hj hg

/-- Replacing the found element by one that still satisfies the predicate
leaves the found index unchanged. -/
theorem findIndex_set_self {p : α → Bool} {l : List α} {i : Nat} {a : α}
    (h : findIndex p l = some i) (ha : p a = true) :
    findIndex p (l.set i a) = some i := by
  induction l generalizing i with
  | nil => simp [findIndex] at h
  | cons x t ih =>
    by_cases hp : p x
    · simp [findIndex, hp] at h
      subst h
      simp [List.set, findIndex, ha]
    · simp [findIndex, hp] at h
      obtain ⟨j, hj, rfl⟩ := h
      simp [List.set, findIndex, hp, ih hj]

theorem getAssoc_mem {l : List (String × Batch)} {k : String} {b : Batch}
    (h : getAssoc l k = some b) : (k, b) ∈ l := by
  induction l with
  | nil => simp [getAssoc] at h
  | cons kv t ih =>
    by_cases hk : kv.1 = k
    · simp [getAssoc, hk] at h
      subst h
      subst hk
      simp
    · simp [getAssoc, hk] at h
      exact List.mem_cons_of_mem kv (ih h)

theorem getAssoc_set_self {l : List (String × Batch)} {k : String} {b : Batch}
    (v : Batch) (h : getAssoc l k = some b) :
    getAssoc (setAssoc l k v) k = some v := by
  induction l with
  | nil => simp [getAssoc] at h
  | cons kv t ih =>
    by_cases hk : kv.1 = k
    · simp [setAssoc, hk, getAssoc]
    · simp [getAssoc, hk] at h
      simp [setAssoc, hk, getAssoc, ih h]

theorem mem_setAssoc {l : List (String × Batch)} {k : String} {v : Batch}
    {kv : String × Batch} (h : kv ∈ setAssoc l k v) : kv ∈ l ∨ kv = (k, v) := by
  induction l with
  | nil => simp [setAssoc] at h
  | cons hd t ih =>
    by_cases hk : hd.1 = k
    · simp [setAssoc, hk] at h
      rcases h with h | h
      · right; exact h
      · left; exact List.mem_cons_of_mem hd h
    · simp [setAssoc, hk] at h
      rcases h with h | h
      · left; simp [h]
      · rcases ih h with h' | h'
        · left; exact List.mem_cons_of_mem hd h'
        · right; exact h'

/-- A successful `applyAllocation` preserves the counter-log equality of
every size of the batch. -/
theorem applyAllocation_invariant {b : Batch} {d : AllocationData} {now : String}
    {b' : Batch} (h : batchSizesInvariant b)
    (ha : applyAllocation b d now = some b') : batchSizesInvariant b' := by
  unfold applyAllocation at ha
  split at ha
  · simp at ha
  split at ha
  · simp at ha
  split at ha
  · simp at ha
  split at ha
  · simp at ha
  split at ha
  · simp at ha
  rename_i _x1 itemIndex hItemIdx _x2 item hItem _x3 sizes hSizes _x4 sizeIndex hSizeIdx _x5 sizeData hSizeData
  rw [Option.some_inj] at ha
  subst ha
  intro item' hitem' s' hs'
  simp only [Option.getD_some] at hitem'
  rcases List.mem_or_eq_of_mem_set hitem' with hold | hnew
  · exact h item' hold s' hs'
  · subst hnew
    simp only [itemSizes, Option.getD_some] at hs'
    rcases List.mem_or_eq_of_mem_set hs' with holdSize | hupd
    · refine h item (List.getElem?_mem hItem) s' ?_
      simp [itemSizes, hSizes, holdSize]
    · subst hupd
      refine updateSize_invariant _ _ _ (h item (List.getElem?_mem hItem) sizeData ?_)
      simp [itemSizes, hSizes, List.getElem?_mem hSizeData]

/-- `recordBatchAllocation` preserves the counter-log equality of every
size of every batch in the store. -/
theorem recordBatchAllocation_invariant (store : Store) (batchId : String)
    (d : AllocationData) (now : String) (h : storeInvariant store) :
    storeInvariant (recordBatchAllocation store batchId d now).2 := by
  unfold recordBatchAllocation
  split
  · exact h
  split
  · exact h
  rename_i batchData hGet
  split
  · exact h
  rename_i updated hApply
  split
  · exact h
  intro kv hkv
  simp only at hkv
  rcases mem_setAssoc hkv with hold | hnew
  · exact h kv hold
  · subst hnew
    exact applyAllocation_invariant (h (batchId, batchData) (getAssoc_mem hGet)) hApply

/-- A successful `recordBatchAllocation` finds a target size in the old
store and persists exactly its `updateSize` image at the same
coordinates. -/
theorem record_success_target {store : Store} {batchId : String}
    {d : AllocationData} {now : String} {st' : Store}
    (h : recordBatchAllocation store batchId d now = (true, st')) :
    ∃ s, targetSize store batchId d = some s ∧
      targetSize st' batchId d = some (updateSize s d now) := by
  unfold recordBatchAllocation at h
  split at h
  · simp at h
  split at h
  · simp at h
  rename_i _x1 batchData hGet
  split at h
  · simp at h
  rename_i _x2 updated hApply
  split at h
  · simp at h
  rw [Prod.mk.injEq] at h
  replace h := h.2
  subst h
  unfold applyAllocation at hApply
  split at hApply
  · simp at hApply
  split at hApply
  · simp at hApply
  split at hApply
  · simp at hApply
  split at hApply
  · simp at hApply
  split at hApply
  · simp at hApply
  rename_i _y1 itemIndex hItemIdx _y2 item hItem _y3 sizes hSizes _y4 sizeIndex hSizeIdx _y5 sizeData hSizeData
  rw [Option.some_inj] at hApply
  refine ⟨sizeData, ?_, ?_⟩
  · simp only [targetSize, hGet, hItemIdx, hItem, hSizes, hSizeIdx]
    exact hSizeData
  · have hItemLt : itemIndex < (batchData.items.getD []).length :=
      findIndex_lt_length hItemIdx
    have hSizeLt : sizeIndex < sizes.length := findIndex_lt_length hSizeIdx
    have hItemP : itemMatches d item = true := findIndex_found hItemIdx hItem
    have hSizeP : sizeMatches d sizeData = true := findIndex_found hSizeIdx hSizeData
    have hGet' : getAssoc (setAssoc store.batches batchId updated) batchId = some updated :=
      getAssoc_set_self updated hGet
    have hItems : updated.items.getD [] = (batchData.items.getD []).set itemIndex
        { item with sizes := some (sizes.set sizeIndex (updateSize sizeData d now)) } := by
      rw [← hApply]
      rfl
    have hNewItemP : itemMatches d
        { item with sizes := some (sizes.set sizeIndex (updateSize sizeData d now)) } = true := by
      simpa [itemMatches] using hItemP
    have hIdx' : findIndex (itemMatches d) (updated.items.getD []) = some itemIndex := by
      rw [hItems]
      exact findIndex_set_self hItemIdx hNewItemP
    have hItem' : (updated.items.getD [])[itemIndex]? = some
        { item with sizes := some (sizes.set sizeIndex (updateSize sizeData d now)) } := by
      rw [hItems]
      exact List.getElem?_set_eq hItemLt
    have hUpdP : sizeMatches d (updateSize sizeData d now) = true := by
      simpa [sizeMatches, updateSize_size] using hSizeP
    have hSIdx' : findIndex (sizeMatches d) (sizes.set sizeIndex (updateSize sizeData d now)) =
        some sizeIndex := findIndex_set_self hSizeIdx hUpdP
    simp only [targetSize, hGet', hIdx', hItem', hSIdx']
    exact List.getElem?_set_eq hSizeLt

theorem foldl_processSize (b : Batch) (item : Item) (sizes : List SizeEntry)
    (acc : SummaryAcc) :
    sizes.foldl (processSize b item) acc =
      { totalOriginal := acc.totalOriginal + (sizes.map sizeOriginal).sum
        totalAllocated := acc.totalAllocated + (sizes.map sizeAlloc).sum
        totalUnallocated := acc.totalUnallocated + (sizes.map sizeQty).sum
        allocatedValue := acc.allocatedValue +
          (sizes.map (fun s => sizeAlloc s * itemPrice item)).sum
        unallocatedValue := acc.unallocatedValue +
          (sizes.map (fun s => sizeQty s * itemPrice item)).sum
        allocationsByProduct := sizes.foldl
          (fun abp s => (sizeLog s).foldl
            (fun abp2 a => insertAllocation abp2 a item.variantType item.color s.size) abp)
          acc.allocationsByProduct
        unallocatedItems := acc.unallocatedItems ++
          sizes.flatMap (fun s => if 0 < sizeQty s then [sizeRow b item s] else []) } := by
  induction sizes generalizing acc with
  | nil => simp
  | cons s rest ih =>
    simp only [List.foldl_cons, List.map_cons, List.sum_cons, List.flatMap_cons]
    rw [ih]
    simp [processSize, sizeOriginal, sizeAlloc, sizeQty, sizeLog, itemPrice, add_assoc,
      List.append_assoc]

theorem foldl_processItem (b : Batch) (items : List Item) (acc : SummaryAcc) :
    items.foldl (processItem b) acc =
      { totalOriginal := acc.totalOriginal + totalOriginalOf items
        totalAllocated := acc.totalAllocated + totalAllocatedOf items
        totalUnallocated := acc.totalUnallocated + totalUnallocatedOf items
        allocatedValue := acc.allocatedValue + allocatedValueOf items
        unallocatedValue := acc.unallocatedValue + unallocatedValueOf items
        allocationsByProduct := items.foldl (fun abp it => itemLogFold it abp)
          acc.allocationsByProduct
        unallocatedItems := acc.unallocatedItems ++ items.flatMap (itemRows b) } := by
  induction items generalizing acc with
  | nil =>
    simp [totalOriginalOf, totalAllocatedOf, totalUnallocatedOf, allocatedValueOf,
      unallocatedValueOf]
  | cons it rest ih =>
    simp only [List.foldl_cons, List.flatMap_cons]
    rw [processItem, foldl_processSize, ih]
    simp [totalOriginalOf, totalAllocatedOf, totalUnallocatedOf, allocatedValueOf,
      unallocatedValueOf, itemLogFold, itemRows, itemSizes, add_assoc, List.append_assoc]

/-- Closed form of `getBatchAllocationSummary` on a batch with an `items`
list. -/
theorem getBatchAllocationSummary_eq (b : Batch) (items : List Item)
    (h : b.items = some items) :
    getBatchAllocationSummary (some b) =
      { totalOriginal := totalOriginalOf items
        totalAllocated := totalAllocatedOf items
        totalUnallocated := totalUnallocatedOf items
        allocatedValue := allocatedValueOf items
        unallocatedValue := unallocatedValueOf items
        allocationRate := some (allocationRateOf (totalAllocatedOf items) (totalOriginalOf items))
        allocationsByProduct := items.foldl (fun abp it => itemLogFold it abp) []
        unallocatedItems := items.flatMap (itemRows b) } := by
  cases b with
  | mk id name bitems =>
    cases h
    simp only [getBatchAllocationSummary]
    rw [foldl_processItem]
    simp [initAcc]

theorem foldl_aggStep (l : List (Option Batch)) (acc : AggAcc) :
    l.foldl aggStep acc =
      { totalOriginal := acc.totalOriginal +
          (l.map (fun b => (getBatchAllocationSummary b).totalOriginal)).sum
        totalAllocated := acc.totalAllocated +
          (l.map (fun b => (getBatchAllocationSummary b).totalAllocated)).sum
        totalUnallocated := acc.totalUnallocated +
          (l.map (fun b => (getBatchAllocationSummary b).totalUnallocated)).sum
        allocatedValue := acc.allocatedValue +
          (l.map (fun b => (getBatchAllocationSummary b).allocatedValue)).sum
        unallocatedValue := acc.unallocatedValue +
          (l.map (fun b => (getBatchAllocationSummary b).unallocatedValue)).sum
        unallocatedItems := acc.unallocatedItems ++
          (l.map (fun b => (getBatchAllocationSummary b).unallocatedItems)).flatten } := by
  induction l generalizing acc with
  | nil => simp
  | cons hd rest ih =>
    simp only [List.foldl_cons, List.map_cons, List.sum_cons, List.flatten_cons]
    rw [ih]
    simp [aggStep, add_assoc, List.append_assoc]

theorem flatMap_rows_qty_sum (b : Batch) (it : Item) (l : List SizeEntry)
    (h : ∀ s ∈ l, 0 ≤ sizeQty s) :
    ((l.flatMap (fun s => if 0 < sizeQty s then [sizeRow b it s] else [])).map
      UnallocatedItem.quantity).sum = (l.map sizeQty).sum := by
  induction l with
  | nil => simp
  | cons s rest ih =>
    have hs : 0 ≤ sizeQty s := h s (List.mem_cons_self s rest)
    have hrest : ∀ x ∈ rest, 0 ≤ sizeQty x := fun x hx => h x (List.mem_cons_of_mem s hx)
    simp only [List.flatMap_cons, List.map_cons, List.sum_cons, List.map_append,
      List.sum_append]
    rw [ih hrest]
    by_cases hpos : 0 < sizeQty s
    · rw [if_pos hpos]
      simp [sizeRow, sizeQty]
    · rw [if_neg hpos]
      have h0 : sizeQty s = 0 := le_antisymm (not_lt.mp hpos) hs
      simp [h0]

theorem flatMap_rows_value_sum (b : Batch) (it : Item) (l : List SizeEntry)
    (h : ∀ s ∈ l, 0 ≤ sizeQty s) :
    ((l.flatMap (fun s => if 0 < sizeQty s then [sizeRow b it s] else [])).map
      UnallocatedItem.value).sum = (l.map (fun s => sizeQty s * itemPrice it)).sum := by
  induction l with
  | nil => simp
  | cons s rest ih =>
    have hs : 0 ≤ sizeQty s := h s (List.mem_cons_self s rest)
    have hrest : ∀ x ∈ rest, 0 ≤ sizeQty x := fun x hx => h x (List.mem_cons_of_mem s hx)
    simp only [List.flatMap_cons, List.map_cons, List.sum_cons, List.map_append,
      List.sum_append]
    rw [ih hrest]
    by_cases hpos : 0 < sizeQty s
    · rw [if_pos hpos]
      simp [sizeRow, sizeQty, itemPrice]
    · rw [if_neg hpos]
      have h0 : sizeQty s = 0 := le_antisymm (not_lt.mp hpos) hs
      simp [h0]

theorem itemRows_qty_sum (b : Batch) (it : Item)
    (h : ∀ s ∈ itemSizes it, 0 ≤ sizeQty s) :
    ((itemRows b it).map UnallocatedItem.quantity).sum = ((itemSizes it).map sizeQty).sum := by
  exact flatMap_rows_qty_sum b it (itemSizes it) h

theorem itemRows_value_sum (b : Batch) (it : Item)
    (h : ∀ s ∈ itemSizes it, 0 ≤ sizeQty s) :
    ((itemRows b it).map UnallocatedItem.value).sum =
      ((itemSizes it).map (fun s => sizeQty s * itemPrice it)).sum := by
  exact flatMap_rows_value_sum b it (itemSizes it) h

/-- Every unallocated row an item contributes is a `sizeRow` of one of its
sizes with positive remaining quantity. -/
theorem mem_itemRows (b : Batch) (it : Item) (row : UnallocatedItem)
    (h : row ∈ itemRows b it) :
    ∃ s ∈ itemSizes it, 0 < sizeQty s ∧ row = sizeRow b it s := by
  unfold itemRows at h
  rw [List.mem_flatMap] at h
  obtain ⟨s, hs, hrow⟩ := h
  by_cases hpos : 0 < sizeQty s
  · simp [hpos] at hrow
    exact ⟨s, hs, hpos, hrow⟩
  · simp [hpos] at hrow

theorem foldl_add_sum (f : α → ℚ) (l : List α) (a : ℚ) :
    l.foldl (fun acc x => acc + f x) a = a + (l.map f).sum := by
  induction l generalizing a with
  | nil => simp
  | cons x rest ih => simp [ih, add_assoc]

theorem foldl_history (students : Option (List Student)) (l : List HistoryEntry)
    (pf : ProductFlowEntry) :
    l.foldl
      (fun pf2 a =>
        { pf2 with
          distributedToStudents := pf2.distributedToStudents + jsOr a.quantity 0
          studentAllocations := pf2.studentAllocations ++ [mkStudentRow students a] })
      pf =
    { pf with
      distributedToStudents := pf.distributedToStudents +
        (l.map (fun a => jsOr a.quantity 0)).sum
      studentAllocations := pf.studentAllocations ++ l.map (mkStudentRow students) } := by
  induction l generalizing pf with
  | nil => simp
  | cons a rest ih =>
    simp only [List.foldl_cons, List.map_cons, List.sum_cons]
    rw [ih]
    simp [add_assoc, List.append_assoc]

theorem processVariant_eq (students : Option (List Student))
    (pf : ProductFlowEntry) (v : Variant) :
    processVariant students pf v =
      { base := pf.base
        currentStock := pf.currentStock + variantStock v
        distributedToStudents := pf.distributedToStudents + variantDistributed v
        studentAllocations := pf.studentAllocations ++
          (v.allocationHistory.getD []).map (mkStudentRow students) } := by
  unfold processVariant
  rw [foldl_history, foldl_add_sum]
  simp [variantStock, variantDistributed]

theorem foldl_processVariant (students : Option (List Student))
    (variants : List Variant) (pf : ProductFlowEntry) :
    variants.foldl (processVariant students) pf =
      { base := pf.base
        currentStock := pf.currentStock + (variants.map variantStock).sum
        distributedToStudents := pf.distributedToStudents +
          (variants.map variantDistributed).sum
        studentAllocations := pf.studentAllocations ++
          variants.flatMap (fun v => (v.allocationHistory.getD []).map (mkStudentRow students)) } := by
  induction variants generalizing pf with
  | nil => simp
  | cons v rest ih =>
    simp only [List.foldl_cons, List.map_cons, List.sum_cons, List.flatMap_cons]
    rw [processVariant_eq, ih]
    simp [add_assoc, List.append_assoc]

/-- C1: for every store whose size records satisfy the counter-log
equality (`allocated` equals the sum of `quantityAllocated` over the
`allocationLog`, which holds in particular when both are 0/absent and the
log empty/absent), any sequence of `recordBatchAllocation` calls — the
successful ones update a size, the failed ones leave the store unchanged —
preserves the equality for every size of every batch. -/
theorem allocated_counter_matches_log_after_runs (store : Store)
    (calls : List (String × AllocationData × String))
    (h : storeInvariant store) : storeInvariant (runAllocations store calls) := by
  induction calls generalizing store with
  | nil => exact h
  | cons c rest ih =>
    exact ih _ (recordBatchAllocation_invariant store c.1 c.2.1 c.2.2 h)

theorem allocated_counter_matches_log_after_runs_witness :
    storeInvariant c2Store ∧
      storeInvariant (runAllocations c2Store [("B1", c2Data, "t0"), ("B1", c2Data, "t1")]) :=
  ⟨by decide,
    allocated_counter_matches_log_after_runs c2Store
      [("B1", c2Data, "t0"), ("B1", c2Data, "t1")] (by decide)⟩

/-- C2: on the batch with one item `{Shirt, White, price 10}` and one size
`{M, quantity 20}`, a `recordBatchAllocation` of quantity 5 for product
`P1` succeeds, sets `originalQuantity` 25, `allocated` 5 and a log of
length 1 on that size; the summary of the updated batch has
`totalOriginal` 25, `totalAllocated` 5, `totalUnallocated` 20,
`allocationRate` 20 (displayed `"20.0"` by `toFixed(1)`), and a single
unallocated row `(M, 20, 200)`. -/
theorem single_shirt_scenario_roundtrip :
    (recordBatchAllocation c2Store "B1" c2Data "t0").1 = true
    ∧ c2SizeAfter.map SizeEntry.originalQuantity = some (some 25)
    ∧ c2SizeAfter.map SizeEntry.allocated = some (some 5)
    ∧ c2SizeAfter.map (fun s => (sizeLog s).length) = some 1
    ∧ (getBatchAllocationSummary c2After).totalOriginal = 25
    ∧ (getBatchAllocationSummary c2After).totalAllocated = 5
    ∧ (getBatchAllocationSummary c2After).totalUnallocated = 20
    ∧ (getBatchAllocationSummary c2After).allocationRate = some 20
    ∧ (getBatchAllocationSummary c2After).unallocatedItems.map
        (fun r => (r.size, r.quantity, r.value)) = [("M", 20, 200)] := by
  norm_num [c2SizeAfter, c2After, c2Store, c2Batch, c2Item, c2Size, c2Data,
    recordBatchAllocation, getAssoc, setAssoc, applyAllocation, findIndex,
    itemMatches, sizeMatches, updateSize, mkLogEntry, jsOr, sizeLog,
    getBatchAllocationSummary, processItem, processSize, insertAllocation,
    initProductAllocation, bumpProductAllocation, jsOrString, sizeRow, initAcc,
    allocationRateOf]

/-- C3: when `recordBatchAllocation` succeeds against a target size with no
`originalQuantity`, the persisted size has
`originalQuantity = (quantity || 0) + quantity` and its `quantity` field is
untouched; when the target already has `originalQuantity`, the value is
kept unchanged. -/
theorem original_quantity_backfill_once (store : Store) (batchId : String)
    (d : AllocationData) (now : String) (st' : Store) (s0 : SizeEntry)
    (hs : recordBatchAllocation store batchId d now = (true, st'))
    (h0 : targetSize store batchId d = some s0) :
    ∃ s1, targetSize st' batchId d = some s1
      ∧ s1.quantity = s0.quantity
      ∧ (s0.originalQuantity = none →
          s1.originalQuantity = some (jsOr s0.quantity 0 + d.quantity))
      ∧ (∀ v, s0.originalQuantity = some v → s1.originalQuantity = some v) := by
  obtain ⟨s, hfound, hafter⟩ := record_success_target hs
  rw [h0, Option.some_inj] at hfound
  subst hfound
  exact ⟨updateSize s0 d now, hafter, updateSize_quantity s0 d now,
    fun hn => updateSize_originalQuantity_none s0 d now hn,
    fun v hv => updateSize_originalQuantity_some s0 d now v hv⟩

theorem original_quantity_backfill_once_witness :
    ∃ s1, targetSize (recordBatchAllocation c3Store "B2" c3Data "t0").2 "B2" c3Data = some s1
      ∧ s1.quantity = c3Size.quantity
      ∧ (c3Size.originalQuantity = none →
          s1.originalQuantity = some (jsOr c3Size.quantity 0 + c3Data.quantity))
      ∧ (∀ v, c3Size.originalQuantity = some v → s1.originalQuantity = some v) :=
  original_quantity_backfill_once c3Store "B2" c3Data "t0"
    (recordBatchAllocation c3Store "B2" c3Data "t0").2 c3Size
    (by norm_num [recordBatchAllocation, getAssoc, setAssoc, applyAllocation, findIndex,
      itemMatches, sizeMatches, updateSize, mkLogEntry, jsOr, c3Store, c3Batch, c3Item,
      c3Size, c3Data])
    (by norm_num [targetSize, getAssoc, findIndex, itemMatches, sizeMatches, c3Store,
      c3Batch, c3Item, c3Size, c3Data])

/-- C4: each numeric total of `getAggregatedAllocationData` is the sum of
the corresponding per-batch summary totals, its `unallocatedItems` is the
in-order concatenation of the per-batch lists, a null/absent batches list
is treated as empty, and the aggregate `allocationRate` is recomputed from
the summed totals with the same zero-guarded formula (0 when the summed
`totalOriginal` is 0), not averaged per batch. -/
theorem aggregation_is_sum_of_summaries (batches : Option (List (Option Batch))) :
    (getAggregatedAllocationData batches).totalOriginal =
      ((batches.getD []).map (fun b => (getBatchAllocationSummary b).totalOriginal)).sum
    ∧ (getAggregatedAllocationData batches).totalAllocated =
      ((batches.getD []).map (fun b => (getBatchAllocationSummary b).totalAllocated)).sum
    ∧ (getAggregatedAllocationData batches).totalUnallocated =
      ((batches.getD []).map (fun b => (getBatchAllocationSummary b).totalUnallocated)).sum
    ∧ (getAggregatedAllocationData batches).allocatedValue =
      ((batches.getD []).map (fun b => (getBatchAllocationSummary b).allocatedValue)).sum
    ∧ (getAggregatedAllocationData batches).unallocatedValue =
      ((batches.getD []).map (fun b => (getBatchAllocationSummary b).unallocatedValue)).sum
    ∧ (getAggregatedAllocationData batches).unallocatedItems =
      ((batches.getD []).map (fun b => (getBatchAllocationSummary b).unallocatedItems)).flatten
    ∧ getAggregatedAllocationData none = getAggregatedAllocationData (some [])
    ∧ (getAggregatedAllocationData batches).allocationRate =
      allocationRateOf (getAggregatedAllocationData batches).totalAllocated
        (getAggregatedAllocationData batches).totalOriginal
    ∧ ((getAggregatedAllocationData batches).totalOriginal = 0 →
        (getAggregatedAllocationData batches).allocationRate = 0) := by
  refine ⟨?_, ?_, ?_, ?_, ?_, ?_, rfl, rfl, ?_⟩
  · simp [getAggregatedAllocationData, foldl_aggStep]
  · simp [getAggregatedAllocationData, foldl_aggStep]
  · simp [getAggregatedAllocationData, foldl_aggStep]
  · simp [getAggregatedAllocationData, foldl_aggStep]
  · simp [getAggregatedAllocationData, foldl_aggStep]
  · simp [getAggregatedAllocationData, foldl_aggStep]
  · intro h
    simp only [getAggregatedAllocationData, foldl_aggStep] at h
    simp only [getAggregatedAllocationData, foldl_aggStep]
    simp only [zero_add] at h
    simp [allocationRateOf, h]

theorem aggregation_is_sum_of_summaries_witness :
    (getAggregatedAllocationData (some [])).allocationRate = 0 :=
  (aggregation_is_sum_of_summaries (some [])).2.2.2.2.2.2.2.2 (by norm_num
    [getAggregatedAllocationData, foldl_aggStep])

/-- C5 counterexample: the summary reads `original` with JavaScript `||`,
not `??`: on a batch whose single size has `originalQuantity` present and
equal to 0 with `quantity` 4, the claim predicts a `totalOriginal`
contribution of 0, but the code falls back to `quantity + allocated` and
returns `totalOriginal` 4. -/
theorem summary_original_zero_counterexample :
    (getBatchAllocationSummary (some c5Batch)).totalOriginal = 4
    ∧ ¬ (getBatchAllocationSummary (some c5Batch)).totalOriginal = 0 := by
  norm_num [getBatchAllocationSummary, processItem, processSize, initAcc, jsOr,
    c5Batch, c5Item, c5Size]

/-- C5 amended: every size entry contributes
`original := size.originalQuantity || (quantity + allocated)` to
`totalOriginal` — falsy, not nullish, coalescing: a present non-zero
`originalQuantity` contributes itself, while an absent one or one equal to
0 contributes `quantity + allocated`. -/
theorem summary_original_falsy_coalescing (b : Batch) (items : List Item)
    (h : b.items = some items) :
    (getBatchAllocationSummary (some b)).totalOriginal = totalOriginalOf items
    ∧ (∀ s : SizeEntry, s.originalQuantity = none →
        sizeOriginal s = sizeQty s + sizeAlloc s)
    ∧ (∀ s : SizeEntry, s.originalQuantity = some 0 →
        sizeOriginal s = sizeQty s + sizeAlloc s)
    ∧ (∀ s : SizeEntry, ∀ v : ℚ, s.originalQuantity = some v → v ≠ 0 →
        sizeOriginal s = v) := by
  refine ⟨?_, ?_, ?_, ?_⟩
  · rw [getBatchAllocationSummary_eq b items h]
  · intro s hs
    simp [sizeOriginal, jsOr, hs]
  · intro s hs
    simp [sizeOriginal, jsOr, hs]
  · intro s v hs hv
    simp [sizeOriginal, jsOr, hs, hv]

theorem summary_original_falsy_coalescing_witness :
    (getBatchAllocationSummary (some c5Batch)).totalOriginal = totalOriginalOf [c5Item] :=
  (summary_original_falsy_coalescing c5Batch [c5Item] rfl).1

/-- C6: `recordBatchAllocation` surfaces every failure as `false` with the
store unchanged — a read failure, a missing batch id, no item matching the
payload's variant type and color, no size matching the payload's size, and
a write failure all return `(false, store)`; whenever the call reports
`false`, no change was persisted (the function is total, so it never
throws). -/
theorem recorder_failures_return_false_unchanged (store : Store) (batchId : String)
    (d : AllocationData) (now : String) :
    ((recordBatchAllocation store batchId d now).1 = false →
      (recordBatchAllocation store batchId d now).2 = store)
    ∧ (store.readFails = true →
        recordBatchAllocation store batchId d now = (false, store))
    ∧ (getAssoc store.batches batchId = none →
        recordBatchAllocation store batchId d now = (false, store))
    ∧ (∀ b, getAssoc store.batches batchId = some b →
        findIndex (itemMatches d) (b.items.getD []) = none →
        recordBatchAllocation store batchId d now = (false, store))
    ∧ (∀ b i item sizes, getAssoc store.batches batchId = some b →
        findIndex (itemMatches d) (b.items.getD []) = some i →
        (b.items.getD [])[i]? = some item →
        item.sizes = some sizes →
        findIndex (sizeMatches d) sizes = none →
        recordBatchAllocation store batchId d now = (false, store))
    ∧ (store.writeFails = true →
        recordBatchAllocation store batchId d now = (false, store)) := by
  refine ⟨?_, ?_, ?_, ?_, ?_, ?_⟩
  · intro hfalse
    by_cases hr : store.readFails = true
    · simp [recordBatchAllocation, hr]
    · rcases hg : getAssoc store.batches batchId with _ | b
      · simp [recordBatchAllocation, hr, hg]
      · rcases ha : applyAllocation b d now with _ | u
        · simp [recordBatchAllocation, hr, hg, ha]
        · by_cases hw : store.writeFails = true
          · simp [recordBatchAllocation, hr, hg, ha, hw]
          · exfalso
            simp [recordBatchAllocation, hr, hg, ha, hw] at hfalse
  · intro hr
    simp [recordBatchAllocation, hr]
  · intro hg
    by_cases hr : store.readFails = true
    · simp [recordBatchAllocation, hr]
    · simp [recordBatchAllocation, hr, hg]
  · intro b hg hidx
    have ha : applyAllocation b d now = none := by
      simp [applyAllocation, hidx]
    by_cases hr : store.readFails = true
    · simp [recordBatchAllocation, hr]
    · simp [recordBatchAllocation, hr, hg, ha]
  · intro b i item sizes hg hidx hitem hsizes hsidx
    have ha : applyAllocation b d now = none := by
      simp [applyAllocation, hidx, hitem, hsizes, hsidx]
    by_cases hr : store.readFails = true
    · simp [recordBatchAllocation, hr]
    · simp [recordBatchAllocation, hr, hg, ha]
  · intro hw
    by_cases hr : store.readFails = true
    · simp [recordBatchAllocation, hr]
    · rcases hg : getAssoc store.batches batchId with _ | b
      · simp [recordBatchAllocation, hr, hg]
      · rcases ha : applyAllocation b d now with _ | u
        · simp [recordBatchAllocation, hr, hg, ha]
        · simp [recordBatchAllocation, hr, hg, ha, hw]

theorem recorder_failures_return_false_unchanged_witness :
    recordBatchAllocation emptyStore "missing" c2Data "t" = (false, emptyStore) :=
  (recorder_failures_return_false_unchanged emptyStore "missing" c2Data "t").2.2.1 rfl

/-- C7: recording the same payload twice (both calls succeeding) appends
two entries to the target size's `allocationLog` and increments its
`allocated` counter by the payload quantity twice — no deduplication of
identical payloads. -/
theorem recorder_not_idempotent (store : Store) (batchId : String)
    (d : AllocationData) (now1 now2 : String) (st1 st2 : Store) (s0 : SizeEntry)
    (h1 : recordBatchAllocation store batchId d now1 = (true, st1))
    (h2 : recordBatchAllocation st1 batchId d now2 = (true, st2))
    (h0 : targetSize store batchId d = some s0) :
    ∃ s2, targetSize st2 batchId d = some s2
      ∧ (sizeLog s2).length = (sizeLog s0).length + 2
      ∧ sizeAlloc s2 = sizeAlloc s0 + d.quantity + d.quantity := by
  obtain ⟨sa, ha0, ha1⟩ := record_success_target h1
  rw [h0, Option.some_inj] at ha0
  subst ha0
  obtain ⟨sb, hb0, hb1⟩ := record_success_target h2
  rw [ha1, Option.some_inj] at hb0
  subst hb0
  refine ⟨updateSize (updateSize s0 d now1) d now2, hb1, ?_, ?_⟩
  · rw [updateSize_log, updateSize_log]
    simp [List.length_append]
  · rw [updateSize_sizeAlloc, updateSize_sizeAlloc]

theorem recorder_not_idempotent_witness :
    ∃ s2, targetSize (recordBatchAllocation
        (recordBatchAllocation c2Store "B1" c2Data "t0").2 "B1" c2Data "t1").2
        "B1" c2Data = some s2
      ∧ (sizeLog s2).length = (sizeLog c2Size).length + 2
      ∧ sizeAlloc s2 = sizeAlloc c2Size + c2Data.quantity + c2Data.quantity :=
  recorder_not_idempotent c2Store "B1" c2Data "t0" "t1"
    (recordBatchAllocation c2Store "B1" c2Data "t0").2
    (recordBatchAllocation (recordBatchAllocation c2Store "B1" c2Data "t0").2
      "B1" c2Data "t1").2
    c2Size
    (by norm_num [recordBatchAllocation, getAssoc, setAssoc, applyAllocation, findIndex,
      itemMatches, sizeMatches, updateSize, mkLogEntry, jsOr, c2Store, c2Batch, c2Item,
      c2Size, c2Data])
    (by norm_num [recordBatchAllocation, getAssoc, setAssoc, applyAllocation, findIndex,
      itemMatches, sizeMatches, updateSize, mkLogEntry, jsOr, c2Store, c2Batch, c2Item,
      c2Size, c2Data])
    (by decide)

/-- C8 counterexample: for a null/absent batch the early-return summary
object carries no `allocationRate` key at all (the field is `undefined`),
so the claim's `allocationRate 0` fails. -/
theorem empty_summary_rate_counterexample :
    (getBatchAllocationSummary none).allocationRate = none
    ∧ (getBatchAllocationSummary none).allocationRate ≠ some 0 := by
  decide

/-- C8 amended: a null/absent batch or a batch without `items` yields the
zero-valued summary with empty lists and no `allocationRate` field
(`undefined` rather than 0), and never throws; an empty `items` list goes
through the computed path and yields the all-zero summary with
`allocationRate` 0. -/
theorem empty_and_missing_batch_summaries :
    getBatchAllocationSummary none = emptySummary
    ∧ (∀ b : Batch, b.items = none → getBatchAllocationSummary (some b) = emptySummary)
    ∧ (∀ b : Batch, b.items = some [] →
        getBatchAllocationSummary (some b) =
          { emptySummary with allocationRate := some 0 }) := by
  refine ⟨rfl, ?_, ?_⟩
  · intro b hb
    cases b with
    | mk id name bitems =>
      cases hb
      rfl
  · intro b hb
    rw [getBatchAllocationSummary_eq b [] hb]
    simp [emptySummary, totalOriginalOf, totalAllocatedOf, totalUnallocatedOf,
      allocatedValueOf, unallocatedValueOf, allocationRateOf]

theorem empty_and_missing_batch_summaries_witness :
    getBatchAllocationSummary (some { id := none, name := none, items := some [] }) =
      { emptySummary with allocationRate := some 0 } :=
  empty_and_missing_batch_summaries.2.2 { id := none, name := none, items := some [] } rfl

theorem sum_map_flatMap (f : β → ℚ) (g : α → List β) (l : List α) :
    ((l.flatMap g).map f).sum = (l.map (fun x => ((g x).map f).sum)).sum := by
  induction l with
  | nil => simp
  | cons x rest ih => simp [ih]

/-- C9: `getProductFlow` returns `null` exactly when the batch or its
`items` is absent; each product group's `currentStock` is the sum of
`quantity` over all sizes of the product's own variants (0 when the
product is not found or has no `variants`), `distributedToStudents` is the
sum of `quantity` over the variants' `allocationHistory` entries, the
student rows are exactly those history entries, and each row resolves the
student name by id lookup with the `"Unknown Student"` fallback. -/
theorem product_flow_shape (batch : Option Batch) (products : Option (List Product))
    (students : Option (List Student)) :
    (getProductFlow batch products students = none ↔ batch.bind Batch.items = none)
    ∧ (∀ flow, getProductFlow batch products students = some flow →
        flow.products = (getBatchAllocationSummary batch).allocationsByProduct.map
          (fun kv => buildProductFlow products students kv.2))
    ∧ (∀ pa : ProductAllocation,
        (buildProductFlow products students pa).currentStock =
          (match (products.getD []).find? (fun p => p.id == pa.productId) with
           | none => 0
           | some p => ((p.variants.getD []).map variantStock).sum))
    ∧ (∀ pa : ProductAllocation,
        (buildProductFlow products students pa).distributedToStudents =
          (match (products.getD []).find? (fun p => p.id == pa.productId) with
           | none => 0
           | some p => ((p.variants.getD []).map variantDistributed).sum))
    ∧ (∀ pa : ProductAllocation,
        (buildProductFlow products students pa).studentAllocations =
          (match (products.getD []).find? (fun p => p.id == pa.productId) with
           | none => []
           | some p => (p.variants.getD []).flatMap
               (fun v => (v.allocationHistory.getD []).map (mkStudentRow students))))
    ∧ (∀ a : HistoryEntry,
        (students.getD []).find? (fun st => st.id == a.studentId) = none →
        (mkStudentRow students a).studentName = "Unknown Student")
    ∧ (∀ a : HistoryEntry, ∀ st : Student,
        (students.getD []).find? (fun st2 => st2.id == a.studentId) = some st →
        (mkStudentRow students a).studentName = jsOrString st.name "Unknown Student") := by
  refine ⟨?_, ?_, ?_, ?_, ?_, ?_, ?_⟩
  · cases batch with
    | none => simp [getProductFlow]
    | some b =>
      cases hb : b.items with
      | none => simp [getProductFlow, hb]
      | some items => simp [getProductFlow, hb]
  · intro flow hflow
    cases batch with
    | none => simp [getProductFlow] at hflow
    | some b =>
      cases hb : b.items with
      | none => simp [getProductFlow, hb] at hflow
      | some items =>
        simp only [getProductFlow, hb] at hflow
        rw [Option.some_inj] at hflow
        subst hflow
        rfl
  · intro pa
    cases hfind : (products.getD []).find? (fun p => p.id == pa.productId) with
    | none => simp [buildProductFlow, hfind]
    | some p =>
      cases hv : p.variants with
      | none => simp [buildProductFlow, hfind, hv]
      | some variants => simp [buildProductFlow, hfind, hv, foldl_processVariant]
  · intro pa
    cases hfind : (products.getD []).find? (fun p => p.id == pa.productId) with
    | none => simp [buildProductFlow, hfind]
    | some p =>
      cases hv : p.variants with
      | none => simp [buildProductFlow, hfind, hv]
      | some variants => simp [buildProductFlow, hfind, hv, foldl_processVariant]
  · intro pa
    cases hfind : (products.getD []).find? (fun p => p.id == pa.productId) with
    | none => simp [buildProductFlow, hfind]
    | some p =>
      cases hv : p.variants with
      | none => simp [buildProductFlow, hfind, hv]
      | some variants => simp [buildProductFlow, hfind, hv, foldl_processVariant]
  · intro a hfind
    simp [mkStudentRow, hfind, jsOrString]
  · intro a st hfind
    simp [mkStudentRow, hfind]

theorem product_flow_shape_witness :
    (mkStudentRow (some []) c9Entry).studentName = "Unknown Student" :=
  (product_flow_shape (some c2Batch) (some []) (some [])).2.2.2.2.2.1 c9Entry (by decide)

/-- C10: when every size quantity of the batch is non-negative or absent,
the summary is internally consistent: `totalUnallocated` is the sum of the
`quantity` fields over `unallocatedItems`, `unallocatedValue` is the sum
of their `value` fields, and each row's `value` is its `quantity` times
its `price` (the item price defaulted to 0). -/
theorem summary_unallocated_consistency (b : Batch) (items : List Item)
    (h : b.items = some items)
    (hq : ∀ it ∈ items, ∀ s ∈ itemSizes it, 0 ≤ s.quantity.getD 0) :
    (getBatchAllocationSummary (some b)).totalUnallocated =
      ((getBatchAllocationSummary (some b)).unallocatedItems.map
        UnallocatedItem.quantity).sum
    ∧ (getBatchAllocationSummary (some b)).unallocatedValue =
      ((getBatchAllocationSummary (some b)).unallocatedItems.map
        UnallocatedItem.value).sum
    ∧ ∀ row ∈ (getBatchAllocationSummary (some b)).unallocatedItems,
        row.value = row.quantity * row.price := by
  have hq' : ∀ it ∈ items, ∀ s ∈ itemSizes it, 0 ≤ sizeQty s := by
    intro it hit s hs
    have := hq it hit s hs
    rcases hqty : s.quantity with _ | v
    · simp [sizeQty, jsOr, hqty]
    · rw [hqty] at this
      simp only [Option.getD_some] at this
      by_cases hv : v = 0
      · simp [sizeQty, jsOr, hqty, hv]
      · simpa [sizeQty, jsOr, hqty, hv] using this
  rw [getBatchAllocationSummary_eq b items h]
  refine ⟨?_, ?_, ?_⟩
  · rw [sum_map_flatMap]
    unfold totalUnallocatedOf
    exact congrArg List.sum (List.map_congr_left
      (fun it hit => (itemRows_qty_sum b it (hq' it hit)).symm))
  · rw [sum_map_flatMap]
    unfold unallocatedValueOf
    exact congrArg List.sum (List.map_congr_left
      (fun it hit => (itemRows_value_sum b it (hq' it hit)).symm))
  · intro row hrow
    rw [List.mem_flatMap] at hrow
    obtain ⟨it, hit, hr⟩ := hrow
    obtain ⟨s, hs, hpos, hrow'⟩ := mem_itemRows b it row hr
    subst hrow'
    simp [sizeRow]

theorem summary_unallocated_consistency_witness :
    (getBatchAllocationSummary (some c2Batch)).totalUnallocated =
      ((getBatchAllocationSummary (some c2Batch)).unallocatedItems.map
        UnallocatedItem.quantity).sum :=
  (summary_unallocated_consistency c2Batch [c2Item] rfl (by decide)).1
